import Mathlib

/-!
Shallow embedding of the price-list pricing subsystem: the `PriceListService`
(retrieve, create, update, addPrices, deletePrices, delete, upsertCustomerGroups_)
together with its collaborators (price-list repository, money-amount repository,
customer-group directory).  Persistent state is a `DB` record; every mutating
service operation runs inside `atomicPhase_`, which commits the resulting state
on success and restores the pre-call state on error.  Each operation also
yields a trace of the repository interactions it performed, in order, so that
read-after-write behaviour is expressible.
-/

set_option autoImplicit false

namespace Medusa

/-- A customer group record, owned by the external customer-group subsystem. -/
structure CustomerGroup where
  id : String
  name : String
deriving Repr, DecidableEq

/-- A customer-group reference as supplied to `upsertCustomerGroups_`. -/
structure GroupRef where
  id : String
deriving Repr, DecidableEq

/-- Input payload for one price record (`PriceListPriceCreateInput`). -/
structure PriceListPriceCreateInput where
  currency_code : String
  amount : Int
  min_quantity : Option Nat := none
  max_quantity : Option Nat := none
deriving Repr, DecidableEq

/-- A persisted price record (a `MoneyAmount` row scoped to a price list). -/
structure MoneyAmount where
  id : String
  price_list_id : String
  currency_code : String
  amount : Int
  min_quantity : Option Nat
  max_quantity : Option Nat
deriving Repr, DecidableEq

/-- The payload of a persisted price record, forgetting its generated id. -/
def MoneyAmount.toInput (m : MoneyAmount) : PriceListPriceCreateInput :=
  { currency_code := m.currency_code
    amount := m.amount
    min_quantity := m.min_quantity
    max_quantity := m.max_quantity }

/-- A persisted price-list row: scalar columns, the soft-delete marker and the
join-table edge to customer groups (kept inline as the list of group ids). -/
structure PriceListRow where
  id : String
  name : String
  description : String
  status : String
  deleted_at : Option Nat
  customer_group_ids : List String
deriving Repr, DecidableEq

/-- The whole persisted state reachable from the subsystem. -/
structure DB where
  price_lists : List PriceListRow
  money_amounts : List MoneyAmount
  groups : List CustomerGroup
  next_id : Nat
deriving Repr, DecidableEq

/-- The error taxonomy: `notFound` is `MedusaError.Types.NOT_FOUND`, `dbError`
is the normalized persistence failure (`MedusaError.Types.DB_ERROR`). -/
inductive Err where
  | notFound (msg : String)
  | dbError (msg : String)
deriving Repr, DecidableEq

/-- One repository interaction, recorded in operation traces. -/
inductive Ev where
  | read
  | save
  | writePrices
  | erasePrices
  | removeList
deriving Repr, DecidableEq

/-- `FindConfig`: caller-specified field selection and relation expansion. -/
structure FindConfig where
  select : List String := []
  relations : List String := []
deriving Repr, DecidableEq

/-- The price list as returned to callers: scalar fields plus the expanded
relations that were requested in the `FindConfig`. -/
structure PriceList where
  id : String
  name : String
  description : String
  status : String
  deleted_at : Option Nat
  prices : List MoneyAmount
  customer_groups : List CustomerGroup
deriving Repr, DecidableEq

/-- Result of a public service call: the returned value or error, the state of
the store after the call (rolled back on error), and the repository trace. -/
structure Outcome (α : Type) [DecidableEq α] where
  result : Except Err α
  db : DB
  trace : List Ev

/-- `findOne` on the price-list repository with an id selector: soft-deleted
rows are excluded from default reads. -/
def findOneLive (db : DB) (priceListId : String) : Option PriceListRow :=
  (db.price_lists.filter (fun r => r.id == priceListId && r.deleted_at.isNone)).head?

/-- All price records owned by the given price list. -/
def pricesOf (db : DB) (listId : String) : List MoneyAmount :=
  db.money_amounts.filter (fun m => m.price_list_id == listId)

/-- The customer-group records associated with a price-list row. -/
def groupsOf (db : DB) (row : PriceListRow) : List CustomerGroup :=
  row.customer_group_ids.filterMap (fun gid => db.groups.find? (fun g => g.id == gid))

/-- Project a stored row to the caller-facing `PriceList`, expanding the
relations requested by the config. -/
def expand (db : DB) (row : PriceListRow) (config : FindConfig) : PriceList :=
  { id := row.id
    name := row.name
    description := row.description
    status := row.status
    deleted_at := row.deleted_at
    prices := if "prices" ∈ config.relations then pricesOf db row.id else []
    customer_groups :=
      if "customer_groups" ∈ config.relations then groupsOf db row else [] }

namespace CustomerGroupService

/-- Modelled from the spec: `CustomerGroupService.retrieve` is not under
`src/`; per spec section 4.3 it is a single lookup by identifier with no side
effects that fails with `NotFoundError` when the referenced group is missing. -/
def retrieve (db : DB) (customerGroupId : String) : Except Err CustomerGroup :=
  match db.groups.find? (fun g => g.id == customerGroupId) with
  | some g => .ok g
  | none =>
      .error (.notFound ("CustomerGroup with id " ++ customerGroupId ++ " was not found"))

end CustomerGroupService

/-- Fresh records inserted for a batch of price inputs, with generated ids
starting at counter `n`, all scoped to `listId`. -/
def mkRecords (listId : String) : Nat → List PriceListPriceCreateInput → List MoneyAmount
  | _, [] => []
  | n, p :: ps =>
      { id := "ma_" ++ toString n
        price_list_id := listId
        currency_code := p.currency_code
        amount := p.amount
        min_quantity := p.min_quantity
        max_quantity := p.max_quantity } :: mkRecords listId (n + 1) ps

namespace MoneyAmountRepository

/-- Modelled from the spec: `MoneyAmountRepository.addPriceListPrices` is not
under `src/`; per spec sections 4.1/4.2, when `replace` is true it deletes all
existing price records for the list before inserting the new ones, otherwise
it appends the new records. -/
def addPriceListPrices (db : DB) (listId : String)
    (prices : List PriceListPriceCreateInput) (replace : Bool := false) : DB :=
  let base :=
    if replace then
      { db with money_amounts := db.money_amounts.filter (fun m => !(m.price_list_id == listId)) }
    else db
  { base with
    money_amounts := base.money_amounts ++ mkRecords listId base.next_id prices
    next_id := base.next_id + prices.length }

/-- Modelled from the spec: `MoneyAmountRepository.deletePriceListPrices` is
not under `src/`; per spec sections 4.1/4.2 it deletes exactly the records
that match the given identifiers and belong to the list, silently ignoring
unmatched identifiers. -/
def deletePriceListPrices (db : DB) (listId : String) (priceIds : List String) : DB :=
  { db with
    money_amounts :=
      db.money_amounts.filter
        (fun m => !(m.price_list_id == listId && priceIds.contains m.id)) }

/-- Natural key of a price record: currency plus quantity scope. -/
def naturalKeyEq (m : MoneyAmount) (p : PriceListPriceCreateInput) : Bool :=
  m.currency_code == p.currency_code &&
    m.min_quantity == p.min_quantity && m.max_quantity == p.max_quantity

/-- Modelled from the spec: `MoneyAmountRepository.updatePriceListPrices` is
not under `src/`; per spec section 4.2 it merges/overwrites by natural key
(currency + scope): an input matching an existing record of the list
overwrites its amount, an unmatched input is inserted. -/
def updatePriceListPrices (listId : String) : DB → List PriceListPriceCreateInput → DB
  | db, [] => db
  | db, p :: ps =>
      let db1 :=
        if db.money_amounts.any (fun m => m.price_list_id == listId && naturalKeyEq m p) then
          { db with
            money_amounts := db.money_amounts.map
              (fun m =>
                if m.price_list_id == listId && naturalKeyEq m p then
                  { m with amount := p.amount }
                else m) }
        else addPriceListPrices db listId [p] false
      updatePriceListPrices listId db1 ps

end MoneyAmountRepository

/-- Id generated for a newly created price list. -/
def freshId (db : DB) : String := "pl_" ++ toString db.next_id

/-- `priceListRepo.create` followed by `save`: persist the scalar fields of a
new price list with a generated id, no deletion marker and no group edges. -/
def plCreateSave (db : DB) (name description status : String) : DB :=
  { db with
    price_lists := db.price_lists ++
      [{ id := freshId db
         name := name
         description := description
         status := status
         deleted_at := none
         customer_group_ids := [] }]
    next_id := db.next_id + 1 }

/-- `priceListRepo.save` of an already-loaded row: rewrite the row with the
given id through `f`. -/
def plSavePatch (db : DB) (priceListId : String) (f : PriceListRow → PriceListRow) : DB :=
  { db with
    price_lists := db.price_lists.map (fun r => if r.id == priceListId then f r else r) }

/-- Modelled from the spec: `PriceListRepository.delete` is not under `src/`;
per spec sections 3 and 4.1 destruction is a soft delete that sets the
soft-delete marker on the row. -/
def plSoftDelete (db : DB) (priceListId : String) : DB :=
  plSavePatch db priceListId (fun r => { r with deleted_at := some 0 })

/-- Modelled from the spec: `formatException` (exception-formatter util) is
not under `src/`; per spec section 7 any failure raised during `create` is
caught and re-wrapped into the single normalized persistence-error type, so
callers of `create` see one failure surface. -/
def formatException : Err → Err
  | .notFound m => .dbError m
  | .dbError m => .dbError m

namespace PriceListService

/-- `retrieve`: fetch one non-deleted price list by id, expanding requested
relations; raises `NotFoundError` when no live row matches. -/
def retrieve (db : DB) (priceListId : String) (config : FindConfig := {}) :
    Except Err PriceList :=
  match findOneLive db priceListId with
  | none =>
      .error (.notFound ("Price list with id: " ++ priceListId ++ " was not found"))
  | some priceList => .ok (expand db priceList config)

/-- The resolution loop of `upsertCustomerGroups_`: each supplied reference is
resolved through the customer-group directory in order, aborting on the first
missing group. -/
def resolveGroups (db : DB) : List GroupRef → Except Err (List CustomerGroup)
  | [] => .ok []
  | cg :: rest =>
      match CustomerGroupService.retrieve db cg.id with
      | .error e => .error e
      | .ok g =>
          match resolveGroups db rest with
          | .error e => .error e
          | .ok gs => .ok (g :: gs)

/-- Body of `upsertCustomerGroups_`: re-retrieve the list (id only), resolve
every supplied group reference, then save the row with its customer-group
association set overwritten by the resolved set. -/
def upsertCustomerGroupsStep (db : DB) (priceListId : String)
    (customerGroups : List GroupRef) : Except Err (DB × List Ev) :=
  match retrieve db priceListId { select := ["id"] } with
  | .error e => .error e
  | .ok _ =>
      match resolveGroups db customerGroups with
      | .error e => .error e
      | .ok groups =>
          .ok (plSavePatch db priceListId
                 (fun r => { r with customer_group_ids := groups.map (fun g => g.id) }),
               [Ev.read, Ev.save])

/-- `atomicPhase_`: commit the produced state on success; on any error roll
the store back to the pre-call state. -/
def atomicPhase {α : Type} [DecidableEq α] (db0 : DB)
    (r : Except Err (α × DB × List Ev)) : Outcome α :=
  match r with
  | .error e => { result := .error e, db := db0, trace := [] }
  | .ok (a, db1, tr) => { result := .ok a, db := db1, trace := tr }

/-- Shared tail of the mutating operations that return the list: run the
remaining step, then re-read the list with the given relations expanded and
return that re-read result. -/
def finishWithReRead (tr2 : List Ev) (step : Except Err (DB × List Ev))
    (priceListId : String) (config : FindConfig) :
    Except Err (PriceList × DB × List Ev) :=
  match step with
  | .error e => .error e
  | .ok (db3, tr3) =>
      match retrieve db3 priceListId config with
      | .error e => .error e
      | .ok result => .ok (result, db3, tr2 ++ tr3 ++ [Ev.read])

/-- Input payload of `create`. -/
structure CreatePriceListInput where
  name : String
  description : String
  status : String := "draft"
  prices : Option (List PriceListPriceCreateInput) := none
  customer_groups : Option (List GroupRef) := none
deriving Repr, DecidableEq

/-- Input payload of `update`: the allow-listed patch fields. -/
structure UpdatePriceListInput where
  name : Option String := none
  description : Option String := none
  status : Option String := none
  prices : Option (List PriceListPriceCreateInput) := none
  customer_groups : Option (List GroupRef) := none
deriving Repr, DecidableEq

/-- The dynamic field-by-field patch of `update`, restricted to the scalar
columns (`prices` and `customer_groups` are split off before the loop). -/
def applyScalarPatch (r : PriceListRow) (u : UpdatePriceListInput) : PriceListRow :=
  { r with
    name := u.name.getD r.name
    description := u.description.getD r.description
    status := u.status.getD r.status }

/-- The optional customer-group step shared by `create` and `update`: when
group references were supplied, run `upsertCustomerGroups_` on them, else do
nothing. -/
def groupStep (db2 : DB) (priceListId : String) (cgs : Option (List GroupRef)) :
    Except Err (DB × List Ev) :=
  match cgs with
  | some refs => upsertCustomerGroupsStep db2 priceListId refs
  | none => .ok (db2, ([] : List Ev))

/-- The optional bulk price insertion of `create`. -/
def createPricesOpt (newId : String) (db1 : DB) (input : CreatePriceListInput) : DB :=
  match input.prices with
  | some prices => MoneyAmountRepository.addPriceListPrices db1 newId prices false
  | none => db1

/-- Repository trace of `create` up to the group step. -/
def createTrace (input : CreatePriceListInput) : List Ev :=
  match input.prices with
  | some _ => [Ev.save, Ev.writePrices]
  | none => [Ev.save]

/-- Transaction body of `create`: persist scalar fields, bulk-insert prices if
supplied, upsert the customer groups if supplied, then re-read the list with
prices and groups expanded. -/
def createInner (db : DB) (input : CreatePriceListInput) :
    Except Err (PriceList × DB × List Ev) :=
  finishWithReRead (createTrace input)
    (groupStep
      (createPricesOpt (freshId db)
        (plCreateSave db input.name input.description input.status) input)
      (freshId db) input.customer_groups)
    (freshId db) { relations := ["prices", "customer_groups"] }

/-- `create`: the transaction body wrapped in the try/catch that normalizes
every failure through `formatException`, inside `atomicPhase_`. -/
def create (db : DB) (input : CreatePriceListInput) : Outcome PriceList :=
  atomicPhase db ((createInner db input).mapError formatException)

/-- The optional price merge of `update`. -/
def updatePricesOpt (priceListId : String) (db1 : DB) (u : UpdatePriceListInput) : DB :=
  match u.prices with
  | some prices => MoneyAmountRepository.updatePriceListPrices priceListId db1 prices
  | none => db1

/-- Repository trace of `update` up to the group step. -/
def updateTrace (u : UpdatePriceListInput) : List Ev :=
  match u.prices with
  | some _ => [Ev.read, Ev.save, Ev.writePrices]
  | none => [Ev.read, Ev.save]

/-- Transaction body of `update`: re-retrieve (id only), overwrite the scalar
fields from the patch, save, then independently apply price merge and group
re-association when present, then re-read. -/
def updateInner (db : DB) (priceListId : String) (u : UpdatePriceListInput) :
    Except Err (PriceList × DB × List Ev) :=
  match retrieve db priceListId { select := ["id"] } with
  | .error e => .error e
  | .ok _ =>
      finishWithReRead (updateTrace u)
        (groupStep
          (updatePricesOpt priceListId
            (plSavePatch db priceListId (fun r => applyScalarPatch r u)) u)
          priceListId u.customer_groups)
        priceListId { relations := ["prices", "customer_groups"] }

/-- `update` wrapped in `atomicPhase_`. -/
def update (db : DB) (priceListId : String) (u : UpdatePriceListInput) :
    Outcome PriceList :=
  atomicPhase db (updateInner db priceListId u)

/-- Transaction body of `addPrices`: re-retrieve (id only), delegate to the
money-amount repository with the replace flag, then re-read with prices. -/
def addPricesInner (db : DB) (priceListId : String)
    (prices : List PriceListPriceCreateInput) (replace : Bool) :
    Except Err (PriceList × DB × List Ev) :=
  match retrieve db priceListId { select := ["id"] } with
  | .error e => .error e
  | .ok priceList =>
      let db1 := MoneyAmountRepository.addPriceListPrices db priceList.id prices replace
      finishWithReRead [Ev.read, Ev.writePrices] (Except.ok (db1, ([] : List Ev)))
        priceList.id { relations := ["prices"] }

/-- `addPrices` wrapped in `atomicPhase_`. -/
def addPrices (db : DB) (priceListId : String)
    (prices : List PriceListPriceCreateInput) (replace : Bool := false) :
    Outcome PriceList :=
  atomicPhase db (addPricesInner db priceListId prices replace)

/-- Transaction body of `deletePrices`: re-retrieve (id only), then delete the
matching records of the list; returns void with no trailing re-read. -/
def deletePricesInner (db : DB) (priceListId : String) (priceIds : List String) :
    Except Err (Unit × DB × List Ev) :=
  match retrieve db priceListId { select := ["id"] } with
  | .error e => .error e
  | .ok priceList =>
      .ok ((), MoneyAmountRepository.deletePriceListPrices db priceList.id priceIds,
        [Ev.read, Ev.erasePrices])

/-- `deletePrices` wrapped in `atomicPhase_`. -/
def deletePrices (db : DB) (priceListId : String) (priceIds : List String) :
    Outcome Unit :=
  atomicPhase db (deletePricesInner db priceListId priceIds)

/-- Transaction body of `delete`: `findOne` by id; absent means success with
no effect, otherwise the row is (soft-)deleted; returns void. -/
def deleteInner (db : DB) (priceListId : String) : Except Err (Unit × DB × List Ev) :=
  match findOneLive db priceListId with
  | none => .ok ((), db, [Ev.read])
  | some priceList => .ok ((), plSoftDelete db priceList.id, [Ev.read, Ev.removeList])

/-- `delete` wrapped in `atomicPhase_`. -/
def delete (db : DB) (priceListId : String) : Outcome Unit :=
  atomicPhase db (deleteInner db priceListId)

/-- `upsertCustomerGroups_` invoked as an operation of its own: it opens no
transaction, but its only write is its final save, which is never reached on
a failed lookup, so a failed call leaves the store untouched. -/
def upsertCustomerGroups_ (db : DB) (priceListId : String)
    (customerGroups : List GroupRef) : Outcome Unit :=
  match upsertCustomerGroupsStep db priceListId customerGroups with
  | .error e => { result := .error e, db := db, trace := [] }
  | .ok (db1, tr) => { result := .ok (), db := db1, trace := tr }

end PriceListService

/-! Concrete sample stores and inputs used to witness the theorems below. -/

/-- A sample store: one live price list `pl_1` with one price record and one
customer-group association, one resolvable group `cg_1`. -/
def dbW : DB :=
  { price_lists := [{ id := "pl_1", name := "EU", description := "", status := "active",
                      deleted_at := none, customer_group_ids := ["cg_1"] }]
    money_amounts := [{ id := "ma_0", price_list_id := "pl_1", currency_code := "eur",
                        amount := 1000, min_quantity := none, max_quantity := none },
                      { id := "ma_1", price_list_id := "pl_2", currency_code := "usd",
                        amount := 70, min_quantity := none, max_quantity := none }]
    groups := [{ id := "cg_1", name := "vip" }]
    next_id := 5 }

/-- The stored row of `pl_1` in `dbW`. -/
def rowW : PriceListRow :=
  { id := "pl_1", name := "EU", description := "", status := "active",
    deleted_at := none, customer_group_ids := ["cg_1"] }

/-- A sample create input carrying prices, used to witness `create` facts. -/
def ciW : PriceListService.CreatePriceListInput :=
  { name := "US", description := "d",
    prices := some [{ currency_code := "usd", amount := 500 }] }

/-- A sample update patch carrying a scalar change, a price change and an
unresolvable group reference. -/
def uW : PriceListService.UpdatePriceListInput :=
  { name := some "EU2",
    prices := some [{ currency_code := "eur", amount := 900 }],
    customer_groups := some [{ id := "nonexistent" }] }

/-- A sample create input with an unresolvable group reference. -/
def ciBadGroup : PriceListService.CreatePriceListInput :=
  { name := "X", description := "", customer_groups := some [{ id := "ghost" }] }

/-- The `eur` price record of `pl_1` in `dbW`. -/
def maEur : MoneyAmount :=
  { id := "ma_0", price_list_id := "pl_1", currency_code := "eur", amount := 1000,
    min_quantity := none, max_quantity := none }

/-- The `usd` price record of the other list `pl_2` in `dbW`. -/
def maUsd : MoneyAmount :=
  { id := "ma_1", price_list_id := "pl_2", currency_code := "usd", amount := 70,
    min_quantity := none, max_quantity := none }

/-- The price list returned by `create dbW ciW`. -/
def plCW : PriceList :=
  { id := "pl_5", name := "US", description := "d", status := "draft", deleted_at := none,
    prices := [{ id := "ma_6", price_list_id := "pl_5", currency_code := "usd",
                 amount := 500, min_quantity := none, max_quantity := none }],
    customer_groups := [] }

/-! Basic facts about `findOneLive` and `retrieve`. -/

theorem head?_filter_live {l : List PriceListRow} {i : String} {row : PriceListRow}
    (h : (l.filter (fun r => r.id == i && r.deleted_at.isNone)).head? = some row) :
    row.id = i ∧ row.deleted_at = none := by
  induction l with
  | nil => simp [List.filter] at h
  | cons r t ih =>
    rw [List.filter_cons] at h
    by_cases hr : (r.id == i && r.deleted_at.isNone) = true
    · rw [if_pos hr] at h
      simp only [List.head?, Option.some.injEq] at h
      simp only [Bool.and_eq_true] at hr
      obtain ⟨h1, h2⟩ := hr
      subst h
      exact ⟨beq_iff_eq.mp h1, Option.isNone_iff_eq_none.mp h2⟩
    · rw [if_neg hr] at h
      exact ih h

theorem findOneLive_some_id {db : DB} {i : String} {row : PriceListRow}
    (h : findOneLive db i = some row) : row.id = i :=
  (head?_filter_live h).1

theorem findOneLive_some_live {db : DB} {i : String} {row : PriceListRow}
    (h : findOneLive db i = some row) : row.deleted_at = none :=
  (head?_filter_live h).2

theorem retrieve_found {db : DB} {i : String} {row : PriceListRow} (cfg : FindConfig)
    (h : findOneLive db i = some row) :
    PriceListService.retrieve db i cfg = .ok (expand db row cfg) := by
  unfold PriceListService.retrieve
  rw [h]

theorem retrieve_missing {db : DB} {i : String} (cfg : FindConfig)
    (h : findOneLive db i = none) :
    PriceListService.retrieve db i cfg
      = .error (.notFound ("Price list with id: " ++ i ++ " was not found")) := by
  unfold PriceListService.retrieve
  rw [h]

theorem retrieve_ok_inv {db : DB} {i : String} {cfg : FindConfig} {pl : PriceList}
    (h : PriceListService.retrieve db i cfg = .ok pl) :
    ∃ row, findOneLive db i = some row ∧ pl = expand db row cfg := by
  unfold PriceListService.retrieve at h
  cases hf : findOneLive db i with
  | none => rw [hf] at h; exact absurd h (by simp)
  | some row =>
    rw [hf] at h
    exact ⟨row, rfl, by simpa using h.symm⟩

theorem expand_id (db : DB) (row : PriceListRow) (cfg : FindConfig) :
    (expand db row cfg).id = row.id := rfl

theorem retrieve_ok_id {db : DB} {i : String} {cfg : FindConfig} {pl : PriceList}
    (h : PriceListService.retrieve db i cfg = .ok pl) :
    PriceListService.retrieve db pl.id cfg = .ok pl := by
  obtain ⟨row, hf, hpl⟩ := retrieve_ok_inv h
  have : pl.id = i := by rw [hpl, expand_id, findOneLive_some_id hf]
  rw [this]
  rw [retrieve_found cfg hf, hpl]

theorem findOneLive_congr {db db2 : DB} (i : String)
    (h : db.price_lists = db2.price_lists) : findOneLive db i = findOneLive db2 i := by
  unfold findOneLive
  rw [h]

/-! Preservation facts: which parts of the store each repository write leaves
untouched. -/

theorem addPriceListPrices_price_lists (db : DB) (l : String)
    (ps : List PriceListPriceCreateInput) (rep : Bool) :
    (MoneyAmountRepository.addPriceListPrices db l ps rep).price_lists = db.price_lists := by
  cases rep <;> rfl

theorem addPriceListPrices_groups (db : DB) (l : String)
    (ps : List PriceListPriceCreateInput) (rep : Bool) :
    (MoneyAmountRepository.addPriceListPrices db l ps rep).groups = db.groups := by
  cases rep <;> rfl

theorem deletePriceListPrices_price_lists (db : DB) (l : String) (ids : List String) :
    (MoneyAmountRepository.deletePriceListPrices db l ids).price_lists = db.price_lists := rfl

theorem plSavePatch_money (db : DB) (i : String) (f : PriceListRow → PriceListRow) :
    (plSavePatch db i f).money_amounts = db.money_amounts := rfl

theorem plSavePatch_groups (db : DB) (i : String) (f : PriceListRow → PriceListRow) :
    (plSavePatch db i f).groups = db.groups := rfl

theorem updatePriceListPrices_price_lists (l : String)
    (ps : List PriceListPriceCreateInput) (db : DB) :
    (MoneyAmountRepository.updatePriceListPrices l db ps).price_lists = db.price_lists := by
  induction ps generalizing db with
  | nil => rfl
  | cons p ps ih =>
    unfold MoneyAmountRepository.updatePriceListPrices
    by_cases hc :
        (db.money_amounts.any
          (fun m => m.price_list_id == l && MoneyAmountRepository.naturalKeyEq m p)) = true
    · rw [if_pos hc] at *
      rw [ih]
    · rw [if_neg hc]
      rw [ih, addPriceListPrices_price_lists]

theorem updatePriceListPrices_groups (l : String)
    (ps : List PriceListPriceCreateInput) (db : DB) :
    (MoneyAmountRepository.updatePriceListPrices l db ps).groups = db.groups := by
  induction ps generalizing db with
  | nil => rfl
  | cons p ps ih =>
    unfold MoneyAmountRepository.updatePriceListPrices
    by_cases hc :
        (db.money_amounts.any
          (fun m => m.price_list_id == l && MoneyAmountRepository.naturalKeyEq m p)) = true
    · rw [if_pos hc] at *
      rw [ih]
    · rw [if_neg hc]
      rw [ih, addPriceListPrices_groups]

/-! Facts about freshly inserted price records. -/

theorem mkRecords_map_toInput (l : String) (n : Nat) (ps : List PriceListPriceCreateInput) :
    (mkRecords l n ps).map MoneyAmount.toInput = ps := by
  induction ps generalizing n with
  | nil => rfl
  | cons p ps ih =>
    simp only [mkRecords, List.map_cons, ih]
    rfl

theorem mkRecords_owner {l : String} {n : Nat} {ps : List PriceListPriceCreateInput}
    {m : MoneyAmount} (hm : m ∈ mkRecords l n ps) : m.price_list_id = l := by
  induction ps generalizing n with
  | nil => simp [mkRecords] at hm
  | cons p ps ih =>
    simp only [mkRecords, List.mem_cons] at hm
    cases hm with
    | inl h => rw [h]
    | inr h => exact ih h

theorem pricesOf_mkRecords_self (l : String) (n : Nat)
    (ps : List PriceListPriceCreateInput) :
    (mkRecords l n ps).filter (fun m => m.price_list_id == l) = mkRecords l n ps :=
  List.filter_eq_self.mpr (fun _ hm => beq_iff_eq.mpr (mkRecords_owner hm))

theorem addPriceListPrices_false_eq (db : DB) (l : String)
    (ps : List PriceListPriceCreateInput) :
    MoneyAmountRepository.addPriceListPrices db l ps false
      = { db with
          money_amounts := db.money_amounts ++ mkRecords l db.next_id ps
          next_id := db.next_id + ps.length } := rfl

theorem addPriceListPrices_true_eq (db : DB) (l : String)
    (ps : List PriceListPriceCreateInput) :
    MoneyAmountRepository.addPriceListPrices db l ps true
      = { db with
          money_amounts :=
            db.money_amounts.filter (fun m => !(m.price_list_id == l))
              ++ mkRecords l db.next_id ps
          next_id := db.next_id + ps.length } := rfl

theorem pricesOf_add_false (db : DB) (l : String) (ps : List PriceListPriceCreateInput) :
    pricesOf (MoneyAmountRepository.addPriceListPrices db l ps false) l
      = pricesOf db l ++ mkRecords l db.next_id ps := by
  rw [addPriceListPrices_false_eq]
  unfold pricesOf
  rw [List.filter_append, pricesOf_mkRecords_self l db.next_id ps]

theorem pricesOf_add_true (db : DB) (l : String) (ps : List PriceListPriceCreateInput) :
    pricesOf (MoneyAmountRepository.addPriceListPrices db l ps true) l
      = mkRecords l db.next_id ps := by
  rw [addPriceListPrices_true_eq]
  unfold pricesOf
  rw [List.filter_append, pricesOf_mkRecords_self l db.next_id ps]
  have hnil : (db.money_amounts.filter (fun m => !(m.price_list_id == l))).filter
      (fun m => m.price_list_id == l) = [] := by
    refine List.filter_eq_nil_iff.mpr ?_
    intro m hm
    have := (List.mem_filter.mp hm).2
    simp only [Bool.not_eq_true'] at this
    simp [this]
  rw [hnil, List.nil_append]

theorem othersOf_add_false (db : DB) (l : String) (ps : List PriceListPriceCreateInput) :
    (MoneyAmountRepository.addPriceListPrices db l ps false).money_amounts.filter
        (fun m => !(m.price_list_id == l))
      = db.money_amounts.filter (fun m => !(m.price_list_id == l)) := by
  rw [addPriceListPrices_false_eq]
  rw [List.filter_append]
  have hnil : (mkRecords l db.next_id ps).filter (fun m => !(m.price_list_id == l)) = [] := by
    refine List.filter_eq_nil_iff.mpr ?_
    intro m hm
    simp [mkRecords_owner hm]
  rw [hnil, List.append_nil]

/-! Facts about row rewrites (`plSavePatch`, `plSoftDelete`). -/

theorem findOneLive_plSavePatch (db : DB) (i j : String) (f : PriceListRow → PriceListRow)
    (hid : ∀ r, (f r).id = r.id) (hdel : ∀ r, (f r).deleted_at = r.deleted_at) :
    findOneLive (plSavePatch db j f) i
      = (findOneLive db i).map (fun r => if r.id == j then f r else r) := by
  unfold findOneLive plSavePatch
  rw [List.filter_map]
  have hfc : db.price_lists.filter
      ((fun r => r.id == i && r.deleted_at.isNone) ∘ (fun r => if r.id == j then f r else r))
      = db.price_lists.filter (fun r => r.id == i && r.deleted_at.isNone) := by
    refine List.filter_congr ?_
    intro r _
    by_cases hj : (r.id == j) = true
    · simp only [Function.comp_apply, if_pos hj, hid, hdel]
    · simp only [Function.comp_apply, if_neg hj]
  rw [hfc, List.head?_map]

theorem findOneLive_plSoftDelete_self (db : DB) (i : String) :
    findOneLive (plSoftDelete db i) i = none := by
  unfold findOneLive plSoftDelete plSavePatch
  rw [List.filter_map]
  have hnil : db.price_lists.filter
      ((fun r => r.id == i && r.deleted_at.isNone) ∘
        (fun r => if r.id == i then { r with deleted_at := some 0 } else r)) = [] := by
    refine List.filter_eq_nil_iff.mpr ?_
    intro r _
    by_cases hj : r.id = i
    · simp [Function.comp, beq_iff_eq, hj]
    · simp [Function.comp, beq_iff_eq, hj]
  rw [hnil]
  rfl

/-! Facts about customer-group resolution. -/

theorem cg_retrieve_error {db : DB} {gid : String} {e : Err}
    (h : CustomerGroupService.retrieve db gid = .error e) :
    e = .notFound ("CustomerGroup with id " ++ gid ++ " was not found") := by
  unfold CustomerGroupService.retrieve at h
  cases hf : db.groups.find? (fun g => g.id == gid) with
  | none => rw [hf] at h; simpa using h.symm
  | some g => rw [hf] at h; exact absurd h (by simp)

theorem cg_retrieve_error_of_missing {db : DB} {gid : String}
    (h : ∀ g ∈ db.groups, g.id ≠ gid) :
    CustomerGroupService.retrieve db gid
      = .error (.notFound ("CustomerGroup with id " ++ gid ++ " was not found")) := by
  unfold CustomerGroupService.retrieve
  have hf : db.groups.find? (fun g => g.id == gid) = none :=
    List.find?_eq_none.mpr (fun g hg => by simpa using h g hg)
  rw [hf]

theorem resolveGroups_error_shape {db : DB} {refs : List GroupRef} {e : Err}
    (h : PriceListService.resolveGroups db refs = .error e) : ∃ m, e = .notFound m := by
  induction refs with
  | nil => exact absurd h (by simp [PriceListService.resolveGroups])
  | cons cg rest ih =>
    unfold PriceListService.resolveGroups at h
    cases hc : CustomerGroupService.retrieve db cg.id with
    | error e0 =>
      rw [hc] at h
      simp only [Except.error.injEq] at h
      exact ⟨_, h ▸ cg_retrieve_error hc⟩
    | ok g =>
      rw [hc] at h
      cases hr : PriceListService.resolveGroups db rest with
      | error e1 =>
        rw [hr] at h
        simp only [Except.error.injEq] at h
        subst h
        exact ih hr
      | ok gs => rw [hr] at h; exact absurd h (by simp)

theorem resolveGroups_error_of_bad {db : DB} {refs : List GroupRef}
    (h : ∃ r ∈ refs, ∀ g ∈ db.groups, g.id ≠ r.id) :
    ∃ m, PriceListService.resolveGroups db refs = .error (.notFound m) := by
  induction refs with
  | nil => simp at h
  | cons cg rest ih =>
    cases hc : CustomerGroupService.retrieve db cg.id with
    | error e0 =>
      refine ⟨"CustomerGroup with id " ++ cg.id ++ " was not found", ?_⟩
      unfold PriceListService.resolveGroups
      rw [hc, cg_retrieve_error hc]
    | ok g =>
      obtain ⟨r, hr, hbad⟩ := h
      cases List.mem_cons.mp hr with
      | inl heq =>
        subst heq
        have hmiss := cg_retrieve_error_of_missing hbad
        rw [hc] at hmiss
        exact absurd hmiss (by simp)
      | inr hmem =>
        obtain ⟨m, hm⟩ := ih ⟨r, hmem, hbad⟩
        refine ⟨m, ?_⟩
        unfold PriceListService.resolveGroups
        rw [hc, hm]

theorem resolveGroups_congr {db db2 : DB} (refs : List GroupRef)
    (h : db.groups = db2.groups) :
    PriceListService.resolveGroups db refs = PriceListService.resolveGroups db2 refs := by
  induction refs with
  | nil => rfl
  | cons cg rest ih =>
    unfold PriceListService.resolveGroups
    have hc : CustomerGroupService.retrieve db cg.id
        = CustomerGroupService.retrieve db2 cg.id := by
      unfold CustomerGroupService.retrieve
      rw [h]
    rw [hc, ih]

/-! Run-structure facts for the transactional wrappers. -/

theorem atomicPhase_error {α : Type} [DecidableEq α] (db0 : DB) {r : Except Err (α × DB × List Ev)}
    {e : Err} (h : r = .error e) :
    PriceListService.atomicPhase db0 r
      = { result := .error e, db := db0, trace := [] } := by
  rw [h]
  rfl

theorem atomicPhase_ok_inv {α : Type} [DecidableEq α] {db0 : DB}
    {r : Except Err (α × DB × List Ev)} {a : α}
    (h : (PriceListService.atomicPhase db0 r).result = .ok a) :
    r = .ok (a, (PriceListService.atomicPhase db0 r).db,
             (PriceListService.atomicPhase db0 r).trace) := by
  cases r with
  | error e => exact absurd h (by simp [PriceListService.atomicPhase])
  | ok x =>
    obtain ⟨a1, db1, tr1⟩ := x
    simp only [PriceListService.atomicPhase, Except.ok.injEq] at h
    subst h
    rfl

theorem finishWithReRead_error (tr2 : List Ev) {step : Except Err (DB × List Ev)} {e : Err}
    (i : String) (cfg : FindConfig) (h : step = .error e) :
    PriceListService.finishWithReRead tr2 step i cfg = .error e := by
  rw [h]
  rfl

theorem finishWithReRead_ok_ok {tr2 tr3 : List Ev} {db3 : DB} {i : String}
    {cfg : FindConfig} {pl : PriceList}
    (h : PriceListService.retrieve db3 i cfg = .ok pl) :
    PriceListService.finishWithReRead tr2 (.ok (db3, tr3)) i cfg
      = .ok (pl, db3, tr2 ++ tr3 ++ [Ev.read]) := by
  have hred : PriceListService.finishWithReRead tr2 (.ok (db3, tr3)) i cfg
      = match PriceListService.retrieve db3 i cfg with
        | .error e => .error e
        | .ok result => .ok (result, db3, tr2 ++ tr3 ++ [Ev.read]) := rfl
  rw [hred, h]

theorem finishWithReRead_ok_inv {tr2 : List Ev} {step : Except Err (DB × List Ev)}
    {i : String} {cfg : FindConfig} {pl : PriceList} {dbf : DB} {tr : List Ev}
    (h : PriceListService.finishWithReRead tr2 step i cfg = .ok (pl, dbf, tr)) :
    PriceListService.retrieve dbf i cfg = .ok pl ∧ tr.getLast? = some Ev.read := by
  cases step with
  | error e => exact absurd h (by simp [PriceListService.finishWithReRead])
  | ok x =>
    obtain ⟨db3, tr3⟩ := x
    have h2 : (match PriceListService.retrieve db3 i cfg with
        | .error e => Except.error e
        | .ok result => Except.ok (result, db3, tr2 ++ tr3 ++ [Ev.read]))
        = Except.ok (pl, dbf, tr) := h
    cases hr : PriceListService.retrieve db3 i cfg with
    | error e => rw [hr] at h2; exact absurd h2 (by simp)
    | ok result =>
      rw [hr] at h2
      simp only [Except.ok.injEq, Prod.mk.injEq] at h2
      obtain ⟨ha, hb, hc⟩ := h2
      subst ha; subst hb; subst hc
      exact ⟨hr, List.getLast?_concat _⟩

/-! Facts about `delete`. -/

theorem delete_result_ok (db : DB) (i : String) :
    (PriceListService.delete db i).result = .ok () := by
  unfold PriceListService.delete PriceListService.deleteInner
  cases hf : findOneLive db i <;> simp [hf, PriceListService.atomicPhase]

theorem delete_db_none {db : DB} {i : String} (hf : findOneLive db i = none) :
    (PriceListService.delete db i).db = db := by
  unfold PriceListService.delete PriceListService.deleteInner
  rw [hf]
  rfl

theorem delete_db_some {db : DB} {i : String} {row : PriceListRow}
    (hf : findOneLive db i = some row) :
    (PriceListService.delete db i).db = plSoftDelete db row.id := by
  unfold PriceListService.delete PriceListService.deleteInner
  rw [hf]
  rfl

theorem findOneLive_delete_self (db : DB) (i : String) :
    findOneLive (PriceListService.delete db i).db i = none := by
  cases hf : findOneLive db i with
  | none => rw [delete_db_none hf, hf]
  | some row =>
    rw [delete_db_some hf, findOneLive_some_id hf]
    exact findOneLive_plSoftDelete_self db i

/-! Claim theorems. -/

/-- C4: `retrieve(id, config)` raises `NotFoundError` exactly when no
non-deleted price list matches the identifier, and otherwise returns the
matching list (with the requested relations expanded) without raising. -/
theorem retrieve_not_found_exactly_when_missing (db : DB) (priceListId : String)
    (config : FindConfig) :
    (findOneLive db priceListId = none →
      PriceListService.retrieve db priceListId config
        = .error (.notFound ("Price list with id: " ++ priceListId ++ " was not found"))) ∧
    (∀ row, findOneLive db priceListId = some row →
      PriceListService.retrieve db priceListId config = .ok (expand db row config)) :=
  ⟨fun h => retrieve_missing config h, fun _ h => retrieve_found config h⟩

theorem retrieve_not_found_exactly_when_missing_witness :
    PriceListService.retrieve dbW "ghost" {}
      = .error (.notFound ("Price list with id: " ++ "ghost" ++ " was not found")) ∧
    PriceListService.retrieve dbW "pl_1" {} = .ok (expand dbW rowW {}) :=
  ⟨(retrieve_not_found_exactly_when_missing dbW "ghost" {}).1 (by decide),
   (retrieve_not_found_exactly_when_missing dbW "pl_1" {}).2 rowW (by decide)⟩

/-- C5: `delete(id)` is idempotent and total: it succeeds for every
identifier (including unknown or already-deleted ones), a second delete also
succeeds and changes nothing, and `retrieve(id)` raises `NotFoundError` after
either call. -/
theorem delete_idempotent_total (db : DB) (priceListId : String) :
    (PriceListService.delete db priceListId).result = .ok () ∧
    (PriceListService.delete (PriceListService.delete db priceListId).db
        priceListId).result = .ok () ∧
    (PriceListService.delete (PriceListService.delete db priceListId).db priceListId).db
      = (PriceListService.delete db priceListId).db ∧
    (∀ config,
      PriceListService.retrieve (PriceListService.delete db priceListId).db
          priceListId config
        = .error (.notFound ("Price list with id: " ++ priceListId ++ " was not found"))) ∧
    (∀ config,
      PriceListService.retrieve
          (PriceListService.delete (PriceListService.delete db priceListId).db
            priceListId).db priceListId config
        = .error (.notFound ("Price list with id: " ++ priceListId ++ " was not found"))) := by
  have h1 : findOneLive (PriceListService.delete db priceListId).db priceListId = none :=
    findOneLive_delete_self db priceListId
  have h2 : (PriceListService.delete (PriceListService.delete db priceListId).db
      priceListId).db = (PriceListService.delete db priceListId).db :=
    delete_db_none h1
  refine ⟨delete_result_ok db priceListId, delete_result_ok _ priceListId, h2,
    fun config => retrieve_missing config h1, fun config => ?_⟩
  rw [h2]
  exact retrieve_missing config h1

/-- C10: when the price-list identifier names no existing list,
`upsertCustomerGroups_` raises the price-list `NotFoundError` (not a group
error, whatever the group references are) and performs no group lookup
result write: the store and the trace are untouched. -/
theorem upsert_missing_list_checked_first (db : DB) (priceListId : String)
    (refs : List GroupRef) (h : findOneLive db priceListId = none) :
    (PriceListService.upsertCustomerGroups_ db priceListId refs).result
      = .error (.notFound ("Price list with id: " ++ priceListId ++ " was not found")) ∧
    (PriceListService.upsertCustomerGroups_ db priceListId refs).db = db ∧
    (PriceListService.upsertCustomerGroups_ db priceListId refs).trace = [] := by
  have hstep : PriceListService.upsertCustomerGroupsStep db priceListId refs
      = .error (.notFound ("Price list with id: " ++ priceListId ++ " was not found")) := by
    unfold PriceListService.upsertCustomerGroupsStep
    rw [retrieve_missing _ h]
  unfold PriceListService.upsertCustomerGroups_
  rw [hstep]
  exact ⟨rfl, rfl, rfl⟩

theorem upsert_missing_list_checked_first_witness :
    (PriceListService.upsertCustomerGroups_ dbW "ghost"
        [{ id := "cg_1" }, { id := "nonexistent" }]).result
      = .error (.notFound ("Price list with id: " ++ "ghost" ++ " was not found")) ∧
    (PriceListService.upsertCustomerGroups_ dbW "ghost"
        [{ id := "cg_1" }, { id := "nonexistent" }]).db = dbW ∧
    (PriceListService.upsertCustomerGroups_ dbW "ghost"
        [{ id := "cg_1" }, { id := "nonexistent" }]).trace = [] :=
  upsert_missing_list_checked_first dbW "ghost"
    [{ id := "cg_1" }, { id := "nonexistent" }] (by decide)

/-- C7: for an existing list and resolvable group references,
`upsertCustomerGroups_` succeeds and replaces the list's entire association
set with exactly the resolved set (a full overwrite, not a merge). -/
theorem upsert_groups_full_overwrite (db : DB) (priceListId : String)
    (refs : List GroupRef) (gs : List CustomerGroup) (row : PriceListRow)
    (hrow : findOneLive db priceListId = some row)
    (hres : PriceListService.resolveGroups db refs = .ok gs) :
    (PriceListService.upsertCustomerGroups_ db priceListId refs).result = .ok () ∧
    findOneLive (PriceListService.upsertCustomerGroups_ db priceListId refs).db priceListId
      = some { row with customer_group_ids := gs.map (fun g => g.id) } := by
  have hstep : PriceListService.upsertCustomerGroupsStep db priceListId refs
      = .ok (plSavePatch db priceListId
               (fun r => { r with customer_group_ids := gs.map (fun g => g.id) }),
             [Ev.read, Ev.save]) := by
    unfold PriceListService.upsertCustomerGroupsStep
    rw [retrieve_found _ hrow, hres]
  unfold PriceListService.upsertCustomerGroups_
  rw [hstep]
  refine ⟨rfl, ?_⟩
  show findOneLive (plSavePatch db priceListId
      (fun r => { r with customer_group_ids := gs.map (fun g => g.id) })) priceListId = _
  rw [findOneLive_plSavePatch db priceListId priceListId
    (fun r => { r with customer_group_ids := gs.map (fun g => g.id) })
    (fun r => rfl) (fun r => rfl), hrow]
  have hbeq : (row.id == priceListId) = true := beq_iff_eq.mpr (findOneLive_some_id hrow)
  have hmap : (some row).map
      (fun r => if r.id == priceListId then
        ({ r with customer_group_ids := gs.map (fun g => g.id) }) else r)
      = some (if row.id == priceListId then
        ({ row with customer_group_ids := gs.map (fun g => g.id) }) else row) := rfl
  rw [hmap, if_pos hbeq]

theorem upsert_groups_full_overwrite_witness :
    (PriceListService.upsertCustomerGroups_ dbW "pl_1" [{ id := "cg_1" }]).result
      = .ok () ∧
    findOneLive (PriceListService.upsertCustomerGroups_ dbW "pl_1"
        [{ id := "cg_1" }]).db "pl_1"
      = some { rowW with customer_group_ids :=
          ([{ id := "cg_1", name := "vip" }] : List CustomerGroup).map (fun g => g.id) } :=
  upsert_groups_full_overwrite dbW "pl_1" [{ id := "cg_1" }]
    [{ id := "cg_1", name := "vip" }] rowW (by decide) rfl

/-- C9: every failure raised inside the `create` transaction is surfaced to
the caller re-wrapped as the single normalized persistence-error type. -/
theorem create_errors_normalized (db : DB) (input : PriceListService.CreatePriceListInput)
    (e : Err) (h : (PriceListService.create db input).result = .error e) :
    ∃ m, e = .dbError m := by
  unfold PriceListService.create at h
  cases hin : PriceListService.createInner db input with
  | error e0 =>
    rw [hin] at h
    have he : formatException e0 = e := by
      simpa [Except.mapError, PriceListService.atomicPhase] using h
    cases e0 with
    | notFound m => exact ⟨m, by rw [← he]; rfl⟩
    | dbError m => exact ⟨m, by rw [← he]; rfl⟩
  | ok x =>
    obtain ⟨a, db1, tr⟩ := x
    rw [hin] at h
    exact absurd h (by simp [Except.mapError, PriceListService.atomicPhase])

theorem create_errors_normalized_witness :
    (PriceListService.create dbW ciBadGroup).result
      = .error (.dbError ("CustomerGroup with id " ++ "ghost" ++ " was not found")) ∧
    ∃ m, Err.dbError ("CustomerGroup with id " ++ "ghost" ++ " was not found")
      = Err.dbError m :=
  ⟨rfl, create_errors_normalized dbW ciBadGroup
    (Err.dbError ("CustomerGroup with id " ++ "ghost" ++ " was not found")) rfl⟩

/-- Shared run fact for `addPrices`: on an existing list the call succeeds,
returns the post-state list with its prices expanded, commits exactly the
repository-level price write, and keeps the list reachable. -/
theorem addPrices_run {db : DB} {i : String} {ps : List PriceListPriceCreateInput}
    {rep : Bool} {row : PriceListRow} (hrow : findOneLive db i = some row) :
    (PriceListService.addPrices db i ps rep).result
      = .ok (expand (MoneyAmountRepository.addPriceListPrices db i ps rep) row
             { relations := ["prices"] }) ∧
    (PriceListService.addPrices db i ps rep).db
      = MoneyAmountRepository.addPriceListPrices db i ps rep ∧
    findOneLive (PriceListService.addPrices db i ps rep).db i = some row := by
  have hid : row.id = i := findOneLive_some_id hrow
  have hpl1 : (MoneyAmountRepository.addPriceListPrices db i ps rep).price_lists
      = db.price_lists := addPriceListPrices_price_lists db i ps rep
  have hrow1 : findOneLive (MoneyAmountRepository.addPriceListPrices db i ps rep) i
      = some row := by
    rw [findOneLive_congr i hpl1]
    exact hrow
  have hinner : PriceListService.addPricesInner db i ps rep
      = .ok (expand (MoneyAmountRepository.addPriceListPrices db i ps rep) row
               { relations := ["prices"] },
             MoneyAmountRepository.addPriceListPrices db i ps rep,
             [Ev.read, Ev.writePrices] ++ ([] : List Ev) ++ [Ev.read]) := by
    unfold PriceListService.addPricesInner
    rw [retrieve_found _ hrow]
    have hexp : (expand db row { select := ["id"] }).id = row.id := rfl
    show PriceListService.finishWithReRead [Ev.read, Ev.writePrices]
        (Except.ok (MoneyAmountRepository.addPriceListPrices db
          (expand db row { select := ["id"] }).id ps rep, ([] : List Ev)))
        (expand db row { select := ["id"] }).id { relations := ["prices"] } = _
    rw [hexp, hid]
    exact finishWithReRead_ok_ok (retrieve_found _ hrow1)
  unfold PriceListService.addPrices
  rw [hinner]
  exact ⟨rfl, rfl, hrow1⟩

/-- C2: `addPrices(id, prices, replace := true)` succeeds on an existing list,
the returned and the stored price-record set both carry exactly the supplied
inputs (all previous records of the list are gone), and repeating the
identical replace call leaves that record set unchanged. -/
theorem addPrices_replace_exact_and_idempotent (db : DB) (priceListId : String)
    (prices : List PriceListPriceCreateInput) (row : PriceListRow)
    (hrow : findOneLive db priceListId = some row) :
    (∃ pl1, (PriceListService.addPrices db priceListId prices true).result = .ok pl1 ∧
      pl1.prices.map MoneyAmount.toInput = prices) ∧
    (pricesOf (PriceListService.addPrices db priceListId prices true).db priceListId).map
        MoneyAmount.toInput = prices ∧
    (∃ pl2, (PriceListService.addPrices
        (PriceListService.addPrices db priceListId prices true).db
        priceListId prices true).result = .ok pl2 ∧
      pl2.prices.map MoneyAmount.toInput = prices) ∧
    (pricesOf (PriceListService.addPrices
        (PriceListService.addPrices db priceListId prices true).db
        priceListId prices true).db priceListId).map MoneyAmount.toInput
      = (pricesOf (PriceListService.addPrices db priceListId prices true).db
          priceListId).map MoneyAmount.toInput := by
  have hid : row.id = priceListId := findOneLive_some_id hrow
  obtain ⟨hres1, hdb1, hrow1⟩ := @addPrices_run db priceListId prices true row hrow
  obtain ⟨hres2, hdb2, hrow2⟩ := @addPrices_run _ priceListId prices true row hrow1
  have hexp : ∀ db2 : DB, (expand db2 row { relations := ["prices"] }).prices
      = pricesOf db2 row.id := by
    intro db2
    show (if "prices" ∈ ["prices"] then pricesOf db2 row.id else []) = pricesOf db2 row.id
    rw [if_pos (by simp)]
  refine ⟨⟨_, hres1, ?_⟩, ?_, ⟨_, hres2, ?_⟩, ?_⟩
  · rw [hexp, hid, pricesOf_add_true, mkRecords_map_toInput]
  · rw [hdb1, pricesOf_add_true, mkRecords_map_toInput]
  · rw [hexp, hid, hdb1, pricesOf_add_true, mkRecords_map_toInput]
  · rw [hdb2, hdb1]
    rw [pricesOf_add_true, pricesOf_add_true, mkRecords_map_toInput]
    rw [mkRecords_map_toInput]

theorem addPrices_replace_exact_and_idempotent_witness :
    (∃ pl1, (PriceListService.addPrices dbW "pl_1"
        [{ currency_code := "usd", amount := 1200 }] true).result = .ok pl1 ∧
      pl1.prices.map MoneyAmount.toInput
        = [{ currency_code := "usd", amount := 1200 }]) ∧
    (pricesOf (PriceListService.addPrices dbW "pl_1"
        [{ currency_code := "usd", amount := 1200 }] true).db "pl_1").map
        MoneyAmount.toInput = [{ currency_code := "usd", amount := 1200 }] ∧
    (∃ pl2, (PriceListService.addPrices
        (PriceListService.addPrices dbW "pl_1"
          [{ currency_code := "usd", amount := 1200 }] true).db
        "pl_1" [{ currency_code := "usd", amount := 1200 }] true).result = .ok pl2 ∧
      pl2.prices.map MoneyAmount.toInput
        = [{ currency_code := "usd", amount := 1200 }]) ∧
    (pricesOf (PriceListService.addPrices
        (PriceListService.addPrices dbW "pl_1"
          [{ currency_code := "usd", amount := 1200 }] true).db
        "pl_1" [{ currency_code := "usd", amount := 1200 }] true).db "pl_1").map
        MoneyAmount.toInput
      = (pricesOf (PriceListService.addPrices dbW "pl_1"
          [{ currency_code := "usd", amount := 1200 }] true).db "pl_1").map
          MoneyAmount.toInput :=
  addPrices_replace_exact_and_idempotent dbW "pl_1"
    [{ currency_code := "usd", amount := 1200 }] rowW (by decide)

/-- C3: `addPrices` with `replace := false` is additive: two successive calls
with disjoint inputs on an existing list both succeed and leave the list's
stored record set equal to the pre-existing records followed by the first and
then the second batch, while records of other lists are untouched. -/
theorem addPrices_append_additive (db : DB) (priceListId : String)
    (ps1 ps2 : List PriceListPriceCreateInput) (row : PriceListRow)
    (hrow : findOneLive db priceListId = some row) (_hdis : ps1.Disjoint ps2) :
    (∃ pl1, (PriceListService.addPrices db priceListId ps1 false).result = .ok pl1) ∧
    (∃ pl2, (PriceListService.addPrices
        (PriceListService.addPrices db priceListId ps1 false).db
        priceListId ps2 false).result = .ok pl2) ∧
    (pricesOf (PriceListService.addPrices
        (PriceListService.addPrices db priceListId ps1 false).db
        priceListId ps2 false).db priceListId).map MoneyAmount.toInput
      = (pricesOf db priceListId).map MoneyAmount.toInput ++ ps1 ++ ps2 ∧
    (PriceListService.addPrices
        (PriceListService.addPrices db priceListId ps1 false).db
        priceListId ps2 false).db.money_amounts.filter
          (fun m => !(m.price_list_id == priceListId))
      = db.money_amounts.filter (fun m => !(m.price_list_id == priceListId)) := by
  obtain ⟨hres1, hdb1, hrow1⟩ := @addPrices_run db priceListId ps1 false row hrow
  obtain ⟨hres2, hdb2, hrow2⟩ := @addPrices_run _ priceListId ps2 false row hrow1
  refine ⟨⟨_, hres1⟩, ⟨_, hres2⟩, ?_, ?_⟩
  · rw [hdb2, hdb1]
    rw [pricesOf_add_false, pricesOf_add_false]
    rw [List.map_append, List.map_append]
    rw [mkRecords_map_toInput, mkRecords_map_toInput]
  · rw [hdb2, hdb1]
    rw [othersOf_add_false, othersOf_add_false]

theorem addPrices_append_additive_witness :
    (∃ pl1, (PriceListService.addPrices dbW "pl_1"
        [{ currency_code := "usd", amount := 1200 }] false).result = .ok pl1) ∧
    (∃ pl2, (PriceListService.addPrices
        (PriceListService.addPrices dbW "pl_1"
          [{ currency_code := "usd", amount := 1200 }] false).db
        "pl_1" [{ currency_code := "dkk", amount := 30 }] false).result = .ok pl2) ∧
    (pricesOf (PriceListService.addPrices
        (PriceListService.addPrices dbW "pl_1"
          [{ currency_code := "usd", amount := 1200 }] false).db
        "pl_1" [{ currency_code := "dkk", amount := 30 }] false).db "pl_1").map
        MoneyAmount.toInput
      = (pricesOf dbW "pl_1").map MoneyAmount.toInput
          ++ [{ currency_code := "usd", amount := 1200 }]
          ++ [{ currency_code := "dkk", amount := 30 }] ∧
    (PriceListService.addPrices
        (PriceListService.addPrices dbW "pl_1"
          [{ currency_code := "usd", amount := 1200 }] false).db
        "pl_1" [{ currency_code := "dkk", amount := 30 }] false).db.money_amounts.filter
          (fun m => !(m.price_list_id == "pl_1"))
      = dbW.money_amounts.filter (fun m => !(m.price_list_id == "pl_1")) :=
  addPrices_append_additive dbW "pl_1"
    [{ currency_code := "usd", amount := 1200 }]
    [{ currency_code := "dkk", amount := 30 }] rowW (by decide)
    (by
      intro a ha hb
      simp only [List.mem_singleton] at ha hb
      subst ha
      exact absurd hb (by decide))

/-- C6: on an existing list, `deletePrices(id, priceIds)` succeeds, deletes
exactly the records of the list whose id appears in `priceIds` (unmatched
identifiers are silently ignored, other records and other lists untouched),
and on a missing list it raises `NotFoundError` leaving the store unchanged. -/
theorem deletePrices_exact_and_ignores_unmatched (db : DB) (priceListId : String)
    (priceIds : List String) (row : PriceListRow)
    (hrow : findOneLive db priceListId = some row) :
    (PriceListService.deletePrices db priceListId priceIds).result = .ok () ∧
    (∀ m : MoneyAmount,
      m ∈ (PriceListService.deletePrices db priceListId priceIds).db.money_amounts ↔
        m ∈ db.money_amounts ∧ ¬(m.price_list_id = priceListId ∧ m.id ∈ priceIds)) ∧
    (PriceListService.deletePrices db priceListId priceIds).db.price_lists
      = db.price_lists ∧
    (∀ missingId, findOneLive db missingId = none →
      (PriceListService.deletePrices db missingId priceIds).result
        = .error (.notFound ("Price list with id: " ++ missingId ++ " was not found")) ∧
      (PriceListService.deletePrices db missingId priceIds).db = db) := by
  have hid : row.id = priceListId := findOneLive_some_id hrow
  have hinner : PriceListService.deletePricesInner db priceListId priceIds
      = .ok ((), MoneyAmountRepository.deletePriceListPrices db priceListId priceIds,
             [Ev.read, Ev.erasePrices]) := by
    unfold PriceListService.deletePricesInner
    rw [retrieve_found _ hrow]
    show Except.ok ((), MoneyAmountRepository.deletePriceListPrices db
        (expand db row { select := ["id"] }).id priceIds, [Ev.read, Ev.erasePrices]) = _
    rw [show (expand db row { select := ["id"] }).id = row.id from rfl, hid]
  refine ⟨?_, ?_, ?_, ?_⟩
  · unfold PriceListService.deletePrices
    rw [hinner]
    rfl
  · intro m
    unfold PriceListService.deletePrices
    rw [hinner]
    show m ∈ (MoneyAmountRepository.deletePriceListPrices db priceListId
        priceIds).money_amounts ↔ _
    unfold MoneyAmountRepository.deletePriceListPrices
    by_cases hA : m.price_list_id = priceListId <;>
      by_cases hB : m.id ∈ priceIds <;>
      simp [List.mem_filter, hA, hB, beq_iff_eq, List.contains, List.elem_iff]
  · unfold PriceListService.deletePrices
    rw [hinner]
    rfl
  · intro missingId hmiss
    have hinner2 : PriceListService.deletePricesInner db missingId priceIds
        = .error (.notFound ("Price list with id: " ++ missingId ++ " was not found")) := by
      unfold PriceListService.deletePricesInner
      rw [retrieve_missing _ hmiss]
    constructor <;> (unfold PriceListService.deletePrices; rw [hinner2]; rfl)

theorem deletePrices_exact_and_ignores_unmatched_witness :
    (PriceListService.deletePrices dbW "pl_1" ["ma_0", "zz"]).result = .ok () ∧
    maEur ∉ (PriceListService.deletePrices dbW "pl_1" ["ma_0", "zz"]).db.money_amounts ∧
    maUsd ∈ (PriceListService.deletePrices dbW "pl_1" ["ma_0", "zz"]).db.money_amounts ∧
    (PriceListService.deletePrices dbW "ghost" ["ma_0"]).result
      = .error (.notFound ("Price list with id: " ++ "ghost" ++ " was not found")) := by
  have h := deletePrices_exact_and_ignores_unmatched dbW "pl_1" ["ma_0", "zz"] rowW
    (by decide)
  refine ⟨h.1, ?_, ?_, ?_⟩
  · intro hmem
    exact ((h.2.1 maEur).mp hmem).2 ⟨rfl, by decide⟩
  · exact (h.2.1 maUsd).mpr ⟨by decide, by decide⟩
  · exact ((deletePrices_exact_and_ignores_unmatched dbW "pl_1" ["ma_0"] rowW
      (by decide)).2.2.2 "ghost" (by decide)).1

/-- Preservation facts for the optional price merge of `update`. -/
theorem updatePricesOpt_price_lists (priceListId : String) (db1 : DB)
    (u : PriceListService.UpdatePriceListInput) :
    (PriceListService.updatePricesOpt priceListId db1 u).price_lists = db1.price_lists := by
  cases hp : u.prices <;>
    simp [PriceListService.updatePricesOpt, hp, updatePriceListPrices_price_lists]

theorem updatePricesOpt_groups (priceListId : String) (db1 : DB)
    (u : PriceListService.UpdatePriceListInput) :
    (PriceListService.updatePricesOpt priceListId db1 u).groups = db1.groups := by
  cases hp : u.prices <;>
    simp [PriceListService.updatePricesOpt, hp, updatePriceListPrices_groups]

/-- The group-upsert step fails with `NotFoundError` whenever one of the
references cannot be resolved against the directory. -/
theorem upsertStep_error_of_bad {db2 db : DB} {priceListId : String}
    {refs : List GroupRef} {row2 : PriceListRow}
    (hfind : findOneLive db2 priceListId = some row2)
    (hg : db2.groups = db.groups)
    (hbad : ∃ r ∈ refs, ∀ g ∈ db.groups, g.id ≠ r.id) :
    ∃ m, PriceListService.upsertCustomerGroupsStep db2 priceListId refs
      = .error (.notFound m) := by
  rw [← hg] at hbad
  obtain ⟨m, hres⟩ := resolveGroups_error_of_bad hbad
  refine ⟨m, ?_⟩
  unfold PriceListService.upsertCustomerGroupsStep
  rw [retrieve_found _ hfind, hres]

/-- C1: a group reference the directory cannot resolve makes
`upsertCustomerGroups_` raise `NotFoundError` with the store left exactly as
before the call, and an `update` transaction that carries such references
(possibly together with scalar and price changes) rolls back wholesale to the
pre-call store. -/
theorem upsert_bad_group_rolls_back (db : DB) (priceListId : String)
    (refs : List GroupRef) (row : PriceListRow)
    (hrow : findOneLive db priceListId = some row)
    (hbad : ∃ r ∈ refs, ∀ g ∈ db.groups, g.id ≠ r.id) :
    (∃ m, (PriceListService.upsertCustomerGroups_ db priceListId refs).result
      = .error (.notFound m)) ∧
    (PriceListService.upsertCustomerGroups_ db priceListId refs).db = db ∧
    (∀ u : PriceListService.UpdatePriceListInput, u.customer_groups = some refs →
      (∃ m, (PriceListService.update db priceListId u).result = .error (.notFound m)) ∧
      (PriceListService.update db priceListId u).db = db) := by
  obtain ⟨m0, hstep0⟩ := upsertStep_error_of_bad hrow rfl hbad
  refine ⟨⟨m0, ?_⟩, ?_, ?_⟩
  · unfold PriceListService.upsertCustomerGroups_
    rw [hstep0]
  · unfold PriceListService.upsertCustomerGroups_
    rw [hstep0]
  · intro u hu
    have hrow1 : findOneLive (plSavePatch db priceListId
        (fun r => PriceListService.applyScalarPatch r u)) priceListId
        = some (PriceListService.applyScalarPatch row u) := by
      rw [findOneLive_plSavePatch db priceListId priceListId
        (fun r => PriceListService.applyScalarPatch r u) (fun r => rfl) (fun r => rfl), hrow]
      have hbeq : (row.id == priceListId) = true := beq_iff_eq.mpr (findOneLive_some_id hrow)
      have hmap : (some row).map
          (fun r => if r.id == priceListId then PriceListService.applyScalarPatch r u else r)
          = some (if row.id == priceListId then PriceListService.applyScalarPatch row u
                  else row) := rfl
      rw [hmap, if_pos hbeq]
    have hrow2 : findOneLive (PriceListService.updatePricesOpt priceListId
        (plSavePatch db priceListId (fun r => PriceListService.applyScalarPatch r u)) u)
        priceListId = some (PriceListService.applyScalarPatch row u) := by
      rw [findOneLive_congr priceListId (updatePricesOpt_price_lists priceListId _ u)]
      exact hrow1
    have hg2 : (PriceListService.updatePricesOpt priceListId
        (plSavePatch db priceListId (fun r => PriceListService.applyScalarPatch r u)) u).groups
        = db.groups := by
      rw [updatePricesOpt_groups, plSavePatch_groups]
    obtain ⟨m2, hstep2⟩ := upsertStep_error_of_bad hrow2 hg2 hbad
    have hgs : PriceListService.groupStep (PriceListService.updatePricesOpt priceListId
        (plSavePatch db priceListId (fun r => PriceListService.applyScalarPatch r u)) u)
        priceListId u.customer_groups = .error (.notFound m2) := by
      rw [hu]
      exact hstep2
    have hinner : PriceListService.updateInner db priceListId u
        = .error (.notFound m2) := by
      unfold PriceListService.updateInner
      rw [retrieve_found _ hrow]
      show PriceListService.finishWithReRead (PriceListService.updateTrace u)
          (PriceListService.groupStep (PriceListService.updatePricesOpt priceListId
            (plSavePatch db priceListId (fun r => PriceListService.applyScalarPatch r u)) u)
            priceListId u.customer_groups)
          priceListId { relations := ["prices", "customer_groups"] } = _
      rw [hgs]
      rfl
    constructor
    · refine ⟨m2, ?_⟩
      unfold PriceListService.update
      rw [hinner]
      rfl
    · unfold PriceListService.update
      rw [hinner]
      rfl

theorem upsert_bad_group_rolls_back_witness :
    (∃ m, (PriceListService.upsertCustomerGroups_ dbW "pl_1"
        [{ id := "nonexistent" }]).result = .error (.notFound m)) ∧
    (PriceListService.upsertCustomerGroups_ dbW "pl_1" [{ id := "nonexistent" }]).db
      = dbW ∧
    (∃ m, (PriceListService.update dbW "pl_1" uW).result = .error (.notFound m)) ∧
    (PriceListService.update dbW "pl_1" uW).db = dbW := by
  have h := upsert_bad_group_rolls_back dbW "pl_1" [{ id := "nonexistent" }] rowW
    (by decide) ⟨{ id := "nonexistent" }, by decide, by decide⟩
  exact ⟨h.1, h.2.1, (h.2.2 uW rfl).1, (h.2.2 uW rfl).2⟩

/-- Inverting `Except.mapError` on a success. -/
theorem mapError_ok_inv {ε ε2 α : Type} {f : ε → ε2} {x : Except ε α} {y : α}
    (h : x.mapError f = .ok y) : x = .ok y := by
  cases x with
  | error e => exact absurd h (by simp [Except.mapError])
  | ok a => simpa [Except.mapError] using h

/-- C8 counterexample: `delete` (on an existing list) and `deletePrices` end
with their delete write, not with a consistency re-read, so not every
mutating operation ends with a re-read. -/
theorem mutating_ops_reread_counterexample :
    (PriceListService.delete dbW "pl_1").trace.getLast? ≠ some Ev.read ∧
    (PriceListService.deletePrices dbW "pl_1" ["ma_0"]).trace.getLast?
      ≠ some Ev.read := by
  exact ⟨by decide, by decide⟩

/-- C8 (amended): `create`, `update` and `addPrices` end with a
consistency-confirming re-read whose result is exactly what they return,
while `deletePrices` and `delete` return void and end with their delete
write (their only read is the up-front existence check). -/
theorem mutating_ops_reread_amended (db : DB)
    (ci : PriceListService.CreatePriceListInput) (priceListId : String)
    (u : PriceListService.UpdatePriceListInput)
    (ps : List PriceListPriceCreateInput) (rep : Bool) (priceIds : List String) :
    (∀ pl, (PriceListService.create db ci).result = .ok pl →
      PriceListService.retrieve (PriceListService.create db ci).db pl.id
          { relations := ["prices", "customer_groups"] } = .ok pl ∧
        (PriceListService.create db ci).trace.getLast? = some Ev.read) ∧
    (∀ pl, (PriceListService.update db priceListId u).result = .ok pl →
      PriceListService.retrieve (PriceListService.update db priceListId u).db pl.id
          { relations := ["prices", "customer_groups"] } = .ok pl ∧
        (PriceListService.update db priceListId u).trace.getLast? = some Ev.read) ∧
    (∀ pl, (PriceListService.addPrices db priceListId ps rep).result = .ok pl →
      PriceListService.retrieve (PriceListService.addPrices db priceListId ps rep).db
          pl.id { relations := ["prices"] } = .ok pl ∧
        (PriceListService.addPrices db priceListId ps rep).trace.getLast?
          = some Ev.read) ∧
    ((PriceListService.deletePrices db priceListId priceIds).result = .ok () →
      (PriceListService.deletePrices db priceListId priceIds).trace
        = [Ev.read, Ev.erasePrices]) ∧
    (∀ row, findOneLive db priceListId = some row →
      (PriceListService.delete db priceListId).trace = [Ev.read, Ev.removeList]) := by
  refine ⟨?_, ?_, ?_, ?_, ?_⟩
  · intro pl h
    unfold PriceListService.create at h ⊢
    have hin := atomicPhase_ok_inv h
    have hin2 := mapError_ok_inv hin
    unfold PriceListService.createInner at hin2
    obtain ⟨hret, hlast⟩ := finishWithReRead_ok_inv hin2
    exact ⟨retrieve_ok_id hret, hlast⟩
  · intro pl h
    unfold PriceListService.update at h ⊢
    have hin := atomicPhase_ok_inv h
    unfold PriceListService.updateInner at hin ⊢
    cases hr0 : PriceListService.retrieve db priceListId { select := ["id"] } with
    | error e => rw [hr0] at hin; exact absurd hin (by simp)
    | ok pl0 =>
      rw [hr0] at hin
      have hin2 : PriceListService.finishWithReRead (PriceListService.updateTrace u)
          (PriceListService.groupStep (PriceListService.updatePricesOpt priceListId
            (plSavePatch db priceListId (fun r => PriceListService.applyScalarPatch r u)) u)
            priceListId u.customer_groups)
          priceListId { relations := ["prices", "customer_groups"] } = _ := hin
      obtain ⟨hret, hlast⟩ := finishWithReRead_ok_inv hin2
      exact ⟨retrieve_ok_id hret, hlast⟩
  · intro pl h
    unfold PriceListService.addPrices at h ⊢
    have hin := atomicPhase_ok_inv h
    unfold PriceListService.addPricesInner at hin ⊢
    cases hr0 : PriceListService.retrieve db priceListId { select := ["id"] } with
    | error e => rw [hr0] at hin; exact absurd hin (by simp)
    | ok pl0 =>
      rw [hr0] at hin
      have hin2 : PriceListService.finishWithReRead [Ev.read, Ev.writePrices]
          (Except.ok (MoneyAmountRepository.addPriceListPrices db pl0.id ps rep,
            ([] : List Ev)))
          pl0.id { relations := ["prices"] } = _ := hin
      obtain ⟨hret, hlast⟩ := finishWithReRead_ok_inv hin2
      exact ⟨retrieve_ok_id hret, hlast⟩
  · intro h
    unfold PriceListService.deletePrices at h ⊢
    unfold PriceListService.deletePricesInner at h ⊢
    cases hr0 : PriceListService.retrieve db priceListId { select := ["id"] } with
    | error e =>
      rw [hr0] at h
      exact absurd h (by simp [PriceListService.atomicPhase])
    | ok pl0 =>
      rfl
  · intro row hf
    unfold PriceListService.delete PriceListService.deleteInner
    rw [hf]
    rfl

theorem mutating_ops_reread_amended_witness :
    (PriceListService.retrieve (PriceListService.create dbW ciW).db plCW.id
        { relations := ["prices", "customer_groups"] } = .ok plCW ∧
      (PriceListService.create dbW ciW).trace.getLast? = some Ev.read) ∧
    (PriceListService.delete dbW "pl_1").trace = [Ev.read, Ev.removeList] :=
  ⟨(mutating_ops_reread_amended dbW ciW "pl_1" {} [] false []).1 plCW rfl,
   (mutating_ops_reread_amended dbW ciW "pl_1" {} [] false []).2.2.2.2 rowW (by decide)⟩

end Medusa
